import Mathlib

/-!
Verification development for the work-rest-timer repository.

The development shallowly embeds the final revision of the sources:
`src/app.js` (TimerModel, TimerController, WorkRestTimer), the ledger class
`TimeEntriesStorage` (src/unnamed/part_002) and the adapter `ExternalTimerAPI`
(src/time-tracking.js).  JavaScript numbers that hold integral millisecond or
second counts are modelled as `Int`; `Math.floor(a / b)` on them is `Int.fdiv`.
`Date.now()` / `new Date()` instants are modelled as an explicit `now : Int`
parameter (milliseconds since the epoch).  `localStorage.getItem` results are
`Option String` parameters (`none` models `null`).  DOM, CSS-class and
notification code has no effect on the modelled state and is omitted.
-/

/-- JavaScript `x || d` on a nullable string: `null` and the empty string are
falsy and yield the default `d`. -/
def jsOr (o : Option String) (d : String) : String :=
  match o with
  | none => d
  | some s => if s = "" then d else s

/-- JavaScript `Number.prototype.toString()` for an integral value: plain
decimal with a leading minus sign for negative values, which is exactly
`Int.repr`. -/
def intToString (i : Int) : String := Int.repr i

/-- Split a character list at every occurrence of `sep`; the separators are
dropped and empty pieces are kept, as JavaScript `String.prototype.split`
does for a one-character separator. -/
def splitChar (sep : Char) : List Char → List (List Char)
  | [] => [[]]
  | c :: cs =>
    if c = sep then [] :: splitChar sep cs
    else
      match splitChar sep cs with
      | [] => [[c]]
      | l :: ls => (c :: l) :: ls

/-- JavaScript `s.split(sep)` for a one-character separator. -/
def jsSplit (sep : Char) (s : String) : List String :=
  (splitChar sep s.data).map String.mk

/-- The lines of a string: the pieces between newline characters.  The number
of lines of a CSV export is the length of this list. -/
def linesOf (s : String) : List String := jsSplit '\n' s

/-- JavaScript `s.padStart(2, '0')`. -/
def padStart2 (s : String) : String :=
  if s.length = 0 then "00"
  else if s.length = 1 then "0" ++ s
  else s

/-- JavaScript `parseInt(s, 10)`: skip leading whitespace, read an optional
sign, then the longest prefix of decimal digits; `none` models `NaN` (no
digits found). -/
def jsParseInt10 (s : String) : Option Int :=
  let cs := s.data.dropWhile (fun c => c.isWhitespace)
  let signAndRest : Int × List Char :=
    match cs with
    | '-' :: rest => (-1, rest)
    | '+' :: rest => (1, rest)
    | _ => (1, cs)
  let ds := signAndRest.2.takeWhile (fun c => c.isDigit)
  if ds.isEmpty then none
  else some (signAndRest.1 * (ds.foldl (fun a c => a * 10 + (c.toNat - 48)) 0 : Nat))

/-- JavaScript `Array.prototype.join(sep)` on a list of strings. -/
def jsJoin (sep : String) (items : List String) : String :=
  match items with
  | [] => ""
  | x :: xs => xs.foldl (fun acc it => acc ++ sep ++ it) x

/-- One time entry object as created by `TimeEntriesStorage.startTimeEntry`:
`id` is `Date.now().toString()`, `start`/`stop` are the instants behind the
stored ISO strings (in ms), `stop` is absent (`none`) while the entry runs,
`duration` is in seconds with `-1` as the running sentinel.  A `NaN`
workspace/project id (unparsable setting) is merged with `undefined` into
`none`. -/
structure TimeEntry where
  id : String
  description : String
  workspace_id : Option Int
  project_id : Option Int
  start : Int
  stop : Option Int
  duration : Int
  synced : Bool
deriving DecidableEq, Repr

/-- The mutable state of the `TimeEntriesStorage` class: the completed-entry
list `localEntries` (insertion order) and the at-most-one running entry
`currentTimeEntry`. -/
structure TimeEntriesStorage where
  localEntries : List TimeEntry
  currentTimeEntry : Option TimeEntry
deriving DecidableEq, Repr

namespace TimeEntriesStorage

/-- `startTimeEntry(description, workspaceId, projectId)`: builds a fresh
running entry and stores it as `currentTimeEntry`, unconditionally (the source
has no already-running guard).  Returns the created entry. -/
def startTimeEntry (description : String) (workspaceId projectId : Option Int)
    (now : Int) (s : TimeEntriesStorage) : TimeEntry × TimeEntriesStorage :=
  let entry : TimeEntry :=
    { id := intToString now
      description := if description = "" then "Work session" else description
      workspace_id := workspaceId
      project_id := projectId
      start := now
      stop := none
      duration := -1
      synced := false }
  (entry, { s with currentTimeEntry := some entry })

/-- `stopTimeEntry()`: returns `null` (here `none`) and leaves the state
unchanged when no entry is running; otherwise stamps `stop = now`, computes
`duration = Math.floor((stop - start) / 1000)`, appends the completed entry to
`localEntries` (`addEntry`), clears `currentTimeEntry` and returns the
completed entry. -/
def stopTimeEntry (now : Int) (s : TimeEntriesStorage) :
    Option TimeEntry × TimeEntriesStorage :=
  match s.currentTimeEntry with
  | none => (none, s)
  | some e =>
    let completed : TimeEntry :=
      { e with stop := some now, duration := Int.fdiv (now - e.start) 1000 }
    (some completed,
      { localEntries := s.localEntries ++ [completed], currentTimeEntry := none })

/-- `clearEntries()`: empties the completed list. -/
def clearEntries (s : TimeEntriesStorage) : TimeEntriesStorage :=
  { s with localEntries := [] }

/-- `hasRunningTimeEntry()`. -/
def hasRunningTimeEntry (s : TimeEntriesStorage) : Bool :=
  s.currentTimeEntry.isSome

/-- One CSV cell wrapped in double quotes: the `cell => ...` mapper inside
`exportCSV`. -/
def quoteCell (c : String) : String := "\"" ++ c ++ "\""

/-- One CSV line: a row of cells, each double-quote-enclosed, joined with
commas (`row.map(...).join(',')`). -/
def csvLine (row : List String) : String := jsJoin "," (row.map quoteCell)

/-- The header row of `exportCSV`. -/
def csvHeader : List String :=
  ["Description", "Start date", "Start time", "End date", "End time",
   "Duration", "Email", "Project"]

/-- The `Duration` cell of `exportCSV`: seconds rendered as `HH:MM:SS` via
`Math.floor` and `padStart(2, '0')`. -/
def durationCell (durationSec : Int) : String :=
  padStart2 (intToString (Int.fdiv durationSec 3600)) ++ ":" ++
  padStart2 (intToString (Int.fdiv (Int.emod durationSec 3600) 60)) ++ ":" ++
  padStart2 (intToString (Int.emod durationSec 60))

/-- One data row of `exportCSV` for a completed entry.  `fmtDate` and
`fmtTime` stand for the browser locale functions
`new Date(x).toLocaleDateString('en-CA')` and
`new Date(x).toLocaleTimeString('en-GB', hour12: false)` (external
collaborators depending on the machine timezone); they receive the optional
instant exactly as the entry stores it.  `email`/`projectName` are the
`localStorage` reads of `togglEmail`/`togglProjectName`, defaulted to the
empty string. -/
def csvRow (fmtDate fmtTime : Option Int → String)
    (email projectName : Option String) (entry : TimeEntry) : List String :=
  [entry.description,
   fmtDate (some entry.start),
   fmtTime (some entry.start),
   fmtDate entry.stop,
   fmtTime entry.stop,
   durationCell entry.duration,
   jsOr email "",
   jsOr projectName ""]

/-- `exportCSV()`: `null` when there are no completed entries, otherwise the
header row followed by one quoted row per completed entry in storage order,
lines joined with a newline. -/
def exportCSV (fmtDate fmtTime : Option Int → String)
    (email projectName : Option String) (s : TimeEntriesStorage) :
    Option String :=
  if s.localEntries.length = 0 then none
  else
    let rows := s.localEntries.map (csvRow fmtDate fmtTime email projectName)
    some (jsJoin "\n" ((csvHeader :: rows).map csvLine))

end TimeEntriesStorage

/-- The `localStorage` settings consumed by `ExternalTimerAPI` when a session
starts (`none` models a missing key). -/
structure Settings where
  togglWorkspace : Option String
  togglProject : Option String
  togglDescription : Option String
deriving DecidableEq, Repr

namespace ExternalTimerAPI

/-- The `workspaceId ? parseInt(workspaceId) : undefined` argument pattern:
falsy (missing or empty) settings and unparsable (`NaN`) settings both end up
carrying no numeric id. -/
def settingId (o : Option String) : Option Int :=
  match o with
  | none => none
  | some s => if s = "" then none else jsParseInt10 s

/-- `ExternalTimerAPI.startTimeEntry()`: reads the settings and delegates to
the storage (the notification call has no modelled effect). -/
def startTimeEntry (env : Settings) (now : Int) (s : TimeEntriesStorage) :
    TimeEntriesStorage :=
  (s.startTimeEntry (jsOr env.togglDescription "Work session")
    (settingId env.togglWorkspace) (settingId env.togglProject) now).2

/-- `ExternalTimerAPI.stopTimeEntry()`: delegates to the storage. -/
def stopTimeEntry (now : Int) (s : TimeEntriesStorage) : TimeEntriesStorage :=
  (s.stopTimeEntry now).2

end ExternalTimerAPI

/-- The two countdown units: `workController` / `restController` in
`WorkRestTimer` (model ids 1 and 2). -/
inductive UnitId where
  | work
  | rest
deriving DecidableEq, Repr

/-- The unit the engine iterates over after `u` — the other member of the
`controllers` pair. -/
def UnitId.other : UnitId → UnitId
  | .work => .rest
  | .rest => .work

/-- `TimerModel`: one timer's data — configured duration `initialTime`,
countdown `remainingTime` (both ms) and the `isCurrent` flag. -/
structure TimerModel where
  initialTime : Int
  remainingTime : Int
  isCurrent : Bool
deriving DecidableEq, Repr

namespace TimerModel

/-- `TimerModel.updateTime(elapsedMs)`: decrement `remainingTime` by the
elapsed time, clamped at 0; a no-op unless both the elapsed time and the
remaining time are positive. -/
def updateTime (m : TimerModel) (elapsedMs : Int) : TimerModel :=
  if elapsedMs > 0 ∧ m.remainingTime > 0 then
    { m with remainingTime := max 0 (m.remainingTime - elapsedMs) }
  else m

/-- `TimerModel.resetRemainingTime()`. -/
def resetRemainingTime (m : TimerModel) : TimerModel :=
  { m with remainingTime := m.initialTime }

/-- `TimerModel.setCurrent(isCurrent)`. -/
def setCurrent (m : TimerModel) (isCurrent : Bool) : TimerModel :=
  { m with isCurrent := isCurrent }

end TimerModel

/-- One observable lifecycle hook invocation: `handleStart`, `handleStop` or
`handleTimeout` fired on a controller (the `onActivate` / `onDeactivate` /
`onTimeout` events of the specification).  The work controller additionally
forwards `start`/`stop`/`timeout` to the ledger; the rest controller's hooks
are no-ops there. -/
inductive TEvent where
  | start (u : UnitId)
  | stop (u : UnitId)
  | timeout (u : UnitId)
deriving DecidableEq, Repr

/-- The `WorkRestTimer` state: the two timer models, whether the tick loop is
live (`this.timer !== null`) and the attached ledger (reached through the
`ExternalApiTimeTracking` strategy of the work controller). -/
structure WorkRestTimer where
  work : TimerModel
  rest : TimerModel
  running : Bool
  ledger : TimeEntriesStorage
deriving DecidableEq, Repr

namespace WorkRestTimer

/-- The model of unit `u`. -/
def model (s : WorkRestTimer) (u : UnitId) : TimerModel :=
  match u with
  | .work => s.work
  | .rest => s.rest

/-- Replace the model of unit `u`. -/
def setModel (s : WorkRestTimer) (u : UnitId) (m : TimerModel) : WorkRestTimer :=
  match u with
  | .work => { s with work := m }
  | .rest => { s with rest := m }

/-- `isRunning()`: `this.timer !== null`. -/
def isRunning (s : WorkRestTimer) : Bool := s.running

/-- `hasCurrentController()`. -/
def hasCurrentController (s : WorkRestTimer) : Bool :=
  s.work.isCurrent || s.rest.isCurrent

/-- `getCurrentController()`: `controllers.find(c => c.isCurrent())`, with the
array ordered `[workController, restController]`. -/
def getCurrentController (s : WorkRestTimer) : Option UnitId :=
  if s.work.isCurrent then some UnitId.work
  else if s.rest.isCurrent then some UnitId.rest
  else none

/-- `controller.handleStart()`: the work controller starts a ledger entry via
the time-tracking strategy, the rest controller does nothing.  Either way the
hook invocation itself is observable. -/
def handleStart (u : UnitId) (env : Settings) (now : Int)
    (led : TimeEntriesStorage) : TimeEntriesStorage × List TEvent :=
  match u with
  | .work => (ExternalTimerAPI.startTimeEntry env now led, [TEvent.start u])
  | .rest => (led, [TEvent.start u])

/-- `controller.handleStop()`: the work controller stops the ledger entry, the
rest controller does nothing. -/
def handleStop (u : UnitId) (now : Int) (led : TimeEntriesStorage) :
    TimeEntriesStorage × List TEvent :=
  match u with
  | .work => (ExternalTimerAPI.stopTimeEntry now led, [TEvent.stop u])
  | .rest => (led, [TEvent.stop u])

/-- `TimerController.stoppedRunning(wasCurrent, isCurrent, wasRunning,
isRunning)`. -/
def stoppedRunning (wasCurrent isCurrent wasRunning isRun : Bool) : Bool :=
  (wasCurrent && !isCurrent && wasRunning) ||
  (wasCurrent && isCurrent && wasRunning && !isRun)

/-- `TimerController.startedRunning(wasCurrent, isCurrent, wasRunning,
isRunning)`. -/
def startedRunning (wasCurrent isCurrent wasRunning isRun : Bool) : Bool :=
  (!wasCurrent && isCurrent && isRun) ||
  (wasCurrent && isCurrent && !wasRunning && isRun)

/-- `TimerController.setCurrent(isCurrent, wasRunning, isRunning)` for the
controller of unit `u`: fire `handleStop` when the controller stopped
running, update the model flag, then fire `handleStart` when it started
running. -/
def ctrlSetCurrent (u : UnitId) (isCur wasRunning isRun : Bool) (env : Settings)
    (now : Int) (m : TimerModel) (led : TimeEntriesStorage) :
    TimerModel × TimeEntriesStorage × List TEvent :=
  let wasCurrent := m.isCurrent
  let stopStep :=
    if stoppedRunning wasCurrent isCur wasRunning isRun then handleStop u now led
    else (led, [])
  let m1 := m.setCurrent isCur
  let startStep :=
    if startedRunning wasCurrent isCur wasRunning isRun then
      handleStart u env now stopStep.1
    else (stopStep.1, [])
  (m1, startStep.1, stopStep.2 ++ startStep.2)

/-- `setCurrentController(controller, wasRunning, isRunning)`:
`controllers.forEach(c => c.setCurrent(c === controller, ...))` over the pair
`[workController, restController]`. -/
def setCurrentController (target : UnitId) (wasRunning isRun : Bool)
    (env : Settings) (now : Int) (s : WorkRestTimer) :
    WorkRestTimer × List TEvent :=
  let w := ctrlSetCurrent UnitId.work (decide (UnitId.work = target)) wasRunning
    isRun env now s.work s.ledger
  let r := ctrlSetCurrent UnitId.rest (decide (UnitId.rest = target)) wasRunning
    isRun env now s.rest w.2.1
  ({ s with work := w.1, rest := r.1, ledger := r.2.1 }, w.2.2 ++ r.2.2)

/-- `start(controller)` (the activate entry point): make the target current,
then start the tick loop when it was not already running. -/
def start (target : UnitId) (env : Settings) (now : Int) (s : WorkRestTimer) :
    WorkRestTimer × List TEvent :=
  let wasRunning := s.running
  let p := setCurrentController target wasRunning true env now s
  if !wasRunning then ({ p.1 with running := true }, p.2) else p

/-- `pause()`: when running, stop the tick loop and fire `handleStop` on the
current controller; when paused with a current controller, restart the tick
loop and fire `handleStart` on it; otherwise do nothing. -/
def pause (env : Settings) (now : Int) (s : WorkRestTimer) :
    WorkRestTimer × List TEvent :=
  let currentController := getCurrentController s
  if s.running then
    let s1 := { s with running := false }
    match currentController with
    | some u =>
      let h := handleStop u now s1.ledger
      ({ s1 with ledger := h.1 }, h.2)
    | none => (s1, [])
  else
    match currentController with
    | some u =>
      let s1 := { s with running := true }
      let h := handleStart u env now s1.ledger
      ({ s1 with ledger := h.1 }, h.2)
    | none => (s, [])

/-- `reset()`: stop the tick loop, then `controller.reset(wasRunning)` on each
controller — reset its remaining time and `setCurrent(false, wasRunning,
false)`. -/
def reset (env : Settings) (now : Int) (s : WorkRestTimer) :
    WorkRestTimer × List TEvent :=
  let wasRunning := s.running
  let s0 := { s with running := false }
  let w := ctrlSetCurrent UnitId.work false wasRunning false env now
    s0.work.resetRemainingTime s0.ledger
  let r := ctrlSetCurrent UnitId.rest false wasRunning false env now
    s0.rest.resetRemainingTime w.2.1
  ({ s0 with work := w.1, rest := r.1, ledger := r.2.1 }, w.2.2 ++ r.2.2)

/-- `handleTimeout(controller)`: cancel the tick loop and let the controller
handle the timeout (the work controller stops the ledger entry). -/
def handleTimeout (u : UnitId) (now : Int) (s : WorkRestTimer) :
    WorkRestTimer × List TEvent :=
  let s1 := { s with running := false }
  match u with
  | .work =>
    ({ s1 with ledger := ExternalTimerAPI.stopTimeEntry now s1.ledger },
      [TEvent.timeout u])
  | .rest => (s1, [TEvent.timeout u])

/-- One pass of the `updateTimer` tick-loop body with measured elapsed time
`elapsedMs`: only acts when the loop is live and at least the 50ms
`UPDATE_DELAY` passed; advances the current controller and hands over to
`handleTimeout` when the remaining time reaches 0. -/
def tick (elapsedMs : Int) (now : Int) (s : WorkRestTimer) :
    WorkRestTimer × List TEvent :=
  if s.running then
    if elapsedMs ≥ 50 then
      match getCurrentController s with
      | some u =>
        let m1 := (s.model u).updateTime elapsedMs
        let s1 := s.setModel u m1
        if m1.remainingTime ≤ 0 then handleTimeout u now s1
        else (s1, [])
      | none => (s, [])
    else (s, [])
  else (s, [])

/-- `parseTime(timeString)`: split on `:`, parse each part with
`parseInt(part, 10) || 0`, accept exactly three parts as `hh:mm:ss` and
exactly two parts as `hh:mm`, reject anything else. -/
def parseTime (timeString : String) : Except String Int :=
  let timeParts := (jsSplit ':' timeString).map
    (fun part => (jsParseInt10 part).getD 0)
  match timeParts with
  | [a, b, c] => Except.ok (a * 3600 + b * 60 + c)
  | [a, b] => Except.ok (a * 3600 + b * 60)
  | _ => Except.error "Invalid time format. Please use hh:mm:ss or hh:mm"

/-- `applyNewTime(controller, newSeconds)`: update the configured duration;
when the edited unit is not current or the engine is not running, also reset
its remaining time to the new value (the `localStorage` and input-field
writes have no modelled state). -/
def applyNewTime (u : UnitId) (newSeconds : Int) (s : WorkRestTimer) :
    WorkRestTimer :=
  let m := s.model u
  let m1 := { m with initialTime := newSeconds * 1000 }
  let m2 := if !m1.isCurrent || !s.running then m1.resetRemainingTime else m1
  s.setModel u m2

/-- `editTimer(controller)` with the `prompt` answer passed in (`none` models
cancel): pause when running, apply the parsed duration when it is a
well-formed positive time (parse errors and non-positive values only raise an
alert), then resume when it was running. -/
def editTimer (u : UnitId) (promptResult : Option String) (env : Settings)
    (now : Int) (s : WorkRestTimer) : WorkRestTimer × List TEvent :=
  let wasRunning := s.running
  let p1 := if wasRunning then pause env now s else (s, [])
  let s2 :=
    match promptResult with
    | some str =>
      if str ≠ "" then
        match parseTime str with
        | Except.ok newSeconds =>
          if newSeconds ≤ 0 then p1.1 else applyNewTime u newSeconds p1.1
        | Except.error _ => p1.1
      else p1.1
    | none => p1.1
  let p3 := if wasRunning then pause env now s2 else (s2, [])
  (p3.1, p1.2 ++ p3.2)

/-- The state constructed by `new WorkRestTimer(player1Seconds,
player2Seconds)` before any interaction, over a ledger loaded from storage:
both models at their configured duration, nothing current, tick loop off. -/
def initState (workSec restSec : Int) (led : TimeEntriesStorage) :
    WorkRestTimer :=
  { work := { initialTime := workSec * 1000, remainingTime := workSec * 1000,
              isCurrent := false }
    rest := { initialTime := restSec * 1000, remainingTime := restSec * 1000,
              isCurrent := false }
    running := false
    ledger := led }

/-- The derived run state of the specification: RUNNING while the tick loop is
live, PAUSED when a unit is current without a live loop, STOPPED otherwise. -/
inductive RunState where
  | stopped
  | running
  | paused
deriving DecidableEq, Repr

/-- Map a `WorkRestTimer` state to the specification's run-state enum. -/
def runStateOf (s : WorkRestTimer) : RunState :=
  if s.running then RunState.running
  else if s.hasCurrentController then RunState.paused
  else RunState.stopped

/-- The UI event surface that drives the engine: timer clicks, the
pause/resume button, the reset button, one tick-loop pass and the
edit-duration dialog. -/
inductive UIEvent where
  | activate (u : UnitId)
  | pauseClick
  | resetClick
  | tickPass (elapsedMs : Int)
  | editDialog (u : UnitId) (promptResult : Option String)
deriving DecidableEq, Repr

/-- Dispatch one UI event. -/
def step (e : UIEvent) (env : Settings) (now : Int) (s : WorkRestTimer) :
    WorkRestTimer × List TEvent :=
  match e with
  | .activate u => start u env now s
  | .pauseClick => pause env now s
  | .resetClick => reset env now s
  | .tickPass ms => tick ms now s
  | .editDialog u r => editTimer u r env now s

/-- The states reachable from startup by any sequence of UI events, with the
settings, prompt answers and wall-clock instants free at every step. -/
inductive Reachable (workSec restSec : Int) (led0 : TimeEntriesStorage) :
    WorkRestTimer → Prop where
  | init : Reachable workSec restSec led0 (initState workSec restSec led0)
  | next (s : WorkRestTimer) (e : UIEvent) (env : Settings) (now : Int) :
      Reachable workSec restSec led0 s →
      Reachable workSec restSec led0 (step e env now s).1

end WorkRestTimer

namespace WorkRestTimer

/-- The single-active-unit invariant of the engine: never two current units,
and a live tick loop only while some unit is current. -/
def engineInv (s : WorkRestTimer) : Prop :=
  ¬(s.work.isCurrent = true ∧ s.rest.isCurrent = true) ∧
  (s.running = true → s.work.isCurrent = true ∨ s.rest.isCurrent = true)

end WorkRestTimer

/-- The at-rest range invariant for one timer model:
`0 ≤ remainingTime ≤ initialTime`. -/
def remainingOk (m : TimerModel) : Prop :=
  0 ≤ m.remainingTime ∧ m.remainingTime ≤ m.initialTime

/-! ## Theorems -/

/-- C1 (counterexample): with an in-progress session in the ledger,
`startTimeEntry` does not fail — it silently replaces the in-progress session
with a brand-new one, so the claimed `AlreadyRunningError` guard does not
exist in the code. -/
theorem startTimeEntry_no_guard_cex :
    (TimeEntriesStorage.startTimeEntry "new" none none 5000
        ⟨[], some ⟨"1", "old", none, none, 0, none, -1, false⟩⟩).2.currentTimeEntry ≠
      some ⟨"1", "old", none, none, 0, none, -1, false⟩ ∧
    (TimeEntriesStorage.startTimeEntry "new" none none 5000
        ⟨[], some ⟨"1", "old", none, none, 0, none, -1, false⟩⟩).2.currentTimeEntry =
      some ⟨"5000", "new", none, none, 5000, none, -1, false⟩ := by
  constructor
  · decide
  · decide

/-- C1 (amended): for every ledger state — whether or not a session is in
progress — `startTimeEntry` succeeds, installs the freshly created session as
the current one (replacing any in-progress session, which is lost without
being recorded), and leaves the completed-session list untouched; there is no
`AlreadyRunningError`. -/
theorem startTimeEntry_always_replaces (d : String) (w p : Option Int)
    (now : Int) (s : TimeEntriesStorage) :
    (s.startTimeEntry d w p now).2.currentTimeEntry =
      some (s.startTimeEntry d w p now).1 ∧
    (s.startTimeEntry d w p now).2.localEntries = s.localEntries := by
  constructor <;> rfl

/-- C2: stopping the ledger while a session is in progress (with a wall clock
that did not run backwards since the session started) appends exactly one
completed entry at the end of `localEntries`, whose duration is
`floor((stop - start) / 1000)` with `stop = now ≥ start`, clears the current
session and returns the completed entry. -/
theorem stopTimeEntry_roundtrip (s : TimeEntriesStorage) (e : TimeEntry)
    (now : Int) (hcur : s.currentTimeEntry = some e) (hmono : e.start ≤ now) :
    ∃ c : TimeEntry,
      (s.stopTimeEntry now).1 = some c ∧
      (s.stopTimeEntry now).2.localEntries = s.localEntries ++ [c] ∧
      (s.stopTimeEntry now).2.localEntries.length = s.localEntries.length + 1 ∧
      c.duration = Int.fdiv (now - c.start) 1000 ∧
      c.stop = some now ∧ c.start ≤ now ∧
      (s.stopTimeEntry now).2.currentTimeEntry = none := by
  refine ⟨{ e with stop := some now, duration := Int.fdiv (now - e.start) 1000 }, ?_⟩
  simp [TimeEntriesStorage.stopTimeEntry, hcur, hmono]

/-- C2 (witness): the round-trip theorem applied to a concrete ledger with a
session started at 1000ms and stopped at 4500ms. -/
theorem stopTimeEntry_roundtrip_witness :
    (⟨[], some ⟨"1", "d", none, none, 1000, none, -1, false⟩⟩ :
        TimeEntriesStorage).currentTimeEntry =
      some ⟨"1", "d", none, none, 1000, none, -1, false⟩ ∧
    (1000 : Int) ≤ 4500 ∧
    ∃ c : TimeEntry,
      ((⟨[], some ⟨"1", "d", none, none, 1000, none, -1, false⟩⟩ :
          TimeEntriesStorage).stopTimeEntry 4500).1 = some c ∧
      ((⟨[], some ⟨"1", "d", none, none, 1000, none, -1, false⟩⟩ :
          TimeEntriesStorage).stopTimeEntry 4500).2.localEntries =
        ([] : List TimeEntry) ++ [c] ∧
      ((⟨[], some ⟨"1", "d", none, none, 1000, none, -1, false⟩⟩ :
          TimeEntriesStorage).stopTimeEntry 4500).2.localEntries.length =
        ([] : List TimeEntry).length + 1 ∧
      c.duration = Int.fdiv (4500 - c.start) 1000 ∧
      c.stop = some 4500 ∧ c.start ≤ 4500 ∧
      ((⟨[], some ⟨"1", "d", none, none, 1000, none, -1, false⟩⟩ :
          TimeEntriesStorage).stopTimeEntry 4500).2.currentTimeEntry = none :=
  ⟨rfl, by decide, stopTimeEntry_roundtrip _ _ _ rfl (by decide)⟩

/-- C9: stopping the ledger with no in-progress session returns `none` — the
absorbed `NoActiveSessionError` failure of the specification, surfaced as the
source's early `return null` — and leaves the whole ledger state (completed
sessions and current session alike) unchanged; nothing is thrown. -/
theorem stopTimeEntry_no_session (s : TimeEntriesStorage) (now : Int)
    (h : s.currentTimeEntry = none) :
    s.stopTimeEntry now = (none, s) := by
  simp [TimeEntriesStorage.stopTimeEntry, h]

/-- C9 (witness): the no-session theorem applied to the empty ledger. -/
theorem stopTimeEntry_no_session_witness :
    (⟨[], none⟩ : TimeEntriesStorage).currentTimeEntry = none ∧
    (⟨[], none⟩ : TimeEntriesStorage).stopTimeEntry 7 =
      (none, (⟨[], none⟩ : TimeEntriesStorage)) :=
  ⟨rfl, stopTimeEntry_no_session _ 7 rfl⟩

/-- C10: an edit-dialog input that splits on `:` into exactly two components
that `parseInt` accepts as numbers `a` and `b` always parses to
`a * 3600 + b * 60` seconds (hours:minutes, never minutes:seconds), and an
input whose component count is neither 2 nor 3 is rejected with the
invalid-format error. -/
theorem parseTime_two_components :
    (∀ (s p q : String) (a b : Int),
        jsSplit ':' s = [p, q] →
        jsParseInt10 p = some a → jsParseInt10 q = some b →
        WorkRestTimer.parseTime s = Except.ok (a * 3600 + b * 60)) ∧
    (∀ s : String,
        (jsSplit ':' s).length ≠ 2 → (jsSplit ':' s).length ≠ 3 →
        WorkRestTimer.parseTime s =
          Except.error "Invalid time format. Please use hh:mm:ss or hh:mm") := by
  constructor
  · intro s p q a b hsplit hp hq
    unfold WorkRestTimer.parseTime
    rw [hsplit]
    simp [hp, hq]
  · intro s h2 h3
    unfold WorkRestTimer.parseTime
    rcases hl : jsSplit ':' s with _ | ⟨p, _ | ⟨q, _ | ⟨r, rest⟩⟩⟩
    · simp
    · simp
    · exact absurd (by rw [hl] ; rfl) h2
    · rcases rest with _ | ⟨w, rest'⟩
      · exact absurd (by rw [hl] ; rfl) h3
      · simp

/-- C10 (witness): the parse theorem applied to the concrete inputs `"1:2"`
(two numeric components) and `"5"` (one component). -/
theorem parseTime_two_components_witness :
    jsSplit ':' "1:2" = ["1", "2"] ∧
    jsParseInt10 "1" = some 1 ∧ jsParseInt10 "2" = some 2 ∧
    WorkRestTimer.parseTime "1:2" = Except.ok (1 * 3600 + 2 * 60) ∧
    (jsSplit ':' "5").length ≠ 2 ∧ (jsSplit ':' "5").length ≠ 3 ∧
    WorkRestTimer.parseTime "5" =
      Except.error "Invalid time format. Please use hh:mm:ss or hh:mm" :=
  ⟨by decide, by decide, by decide,
   parseTime_two_components.1 "1:2" "1" "2" 1 2 (by decide) (by decide)
     (by decide),
   by decide, by decide,
   parseTime_two_components.2 "5" (by decide) (by decide)⟩

/-- C8: activating the same unit twice in a row is idempotent — whatever the
starting state, settings and clock, the second `start` call returns the state
of the first call unchanged (engine, both units and ledger) and fires no
lifecycle hook at all. -/
theorem activate_idempotent (s : WorkRestTimer) (u : UnitId)
    (env env2 : Settings) (now now2 : Int) :
    WorkRestTimer.start u env2 now2 (WorkRestTimer.start u env now s).1 =
      ((WorkRestTimer.start u env now s).1, ([] : List TEvent)) := by
  cases u <;> cases hr : s.running <;>
    simp [WorkRestTimer.start, WorkRestTimer.setCurrentController,
      WorkRestTimer.ctrlSetCurrent, WorkRestTimer.stoppedRunning,
      WorkRestTimer.startedRunning, TimerModel.setCurrent, hr]

/-- C3 (counterexample): with the rest unit active and the engine running,
`start(work)` fires `onActivate(work)` BEFORE `onDeactivate(rest)` — the
controllers are visited in fixed array order (work first), so the claimed
deactivate-before-activate order does not hold when switching to work. -/
theorem activate_work_hook_order_cex :
    (WorkRestTimer.start UnitId.work ⟨none, none, none⟩ 0
        ⟨⟨600000, 600000, false⟩, ⟨600000, 500000, true⟩, true, ⟨[], none⟩⟩).2 =
      [TEvent.start UnitId.work, TEvent.stop UnitId.rest] ∧
    (WorkRestTimer.start UnitId.work ⟨none, none, none⟩ 0
        ⟨⟨600000, 600000, false⟩, ⟨600000, 500000, true⟩, true, ⟨[], none⟩⟩).2 ≠
      [TEvent.stop UnitId.rest, TEvent.start UnitId.work] := by
  constructor
  · decide
  · decide

/-- C3 (amended): activating `u` while the other unit is active and the engine
is running switches the active unit to `u`, keeps the engine running, and
fires each of the two hooks exactly once — but in the fixed controller
iteration order (work controller first), not deactivate-first: activating
rest fires `onDeactivate(work)` then `onActivate(rest)`, while activating
work fires `onActivate(work)` then `onDeactivate(rest)`. -/
theorem activate_switch_hook_order (s : WorkRestTimer) (u : UnitId)
    (env : Settings) (now : Int) (hrun : s.running = true)
    (hother : (s.model u.other).isCurrent = true)
    (hu : (s.model u).isCurrent = false) :
    (WorkRestTimer.start u env now s).2 =
      (match u with
       | UnitId.work => [TEvent.start UnitId.work, TEvent.stop UnitId.rest]
       | UnitId.rest => [TEvent.stop UnitId.work, TEvent.start UnitId.rest]) ∧
    WorkRestTimer.getCurrentController (WorkRestTimer.start u env now s).1 =
      some u ∧
    (WorkRestTimer.start u env now s).1.running = true := by
  cases u <;>
    simp [UnitId.other, WorkRestTimer.model] at hother hu <;>
    simp [WorkRestTimer.start, WorkRestTimer.setCurrentController,
      WorkRestTimer.ctrlSetCurrent, WorkRestTimer.stoppedRunning,
      WorkRestTimer.startedRunning, TimerModel.setCurrent,
      WorkRestTimer.handleStart, WorkRestTimer.handleStop,
      WorkRestTimer.getCurrentController, hrun, hother, hu]

/-- C3 (witness): the amended hook-order theorem applied to a concrete running
state with rest active, activating work. -/
theorem activate_switch_hook_order_witness :
    (⟨⟨600000, 600000, false⟩, ⟨600000, 500000, true⟩, true, ⟨[], none⟩⟩ :
        WorkRestTimer).running = true ∧
    ((⟨⟨600000, 600000, false⟩, ⟨600000, 500000, true⟩, true, ⟨[], none⟩⟩ :
        WorkRestTimer).model UnitId.work.other).isCurrent = true ∧
    ((⟨⟨600000, 600000, false⟩, ⟨600000, 500000, true⟩, true, ⟨[], none⟩⟩ :
        WorkRestTimer).model UnitId.work).isCurrent = false ∧
    ((WorkRestTimer.start UnitId.work ⟨none, none, none⟩ 0
        ⟨⟨600000, 600000, false⟩, ⟨600000, 500000, true⟩, true, ⟨[], none⟩⟩).2 =
      (match UnitId.work with
       | UnitId.work => [TEvent.start UnitId.work, TEvent.stop UnitId.rest]
       | UnitId.rest => [TEvent.stop UnitId.work, TEvent.start UnitId.rest]) ∧
     WorkRestTimer.getCurrentController (WorkRestTimer.start UnitId.work
        ⟨none, none, none⟩ 0
        ⟨⟨600000, 600000, false⟩, ⟨600000, 500000, true⟩, true, ⟨[], none⟩⟩).1 =
       some UnitId.work ∧
     (WorkRestTimer.start UnitId.work ⟨none, none, none⟩ 0
        ⟨⟨600000, 600000, false⟩, ⟨600000, 500000, true⟩, true, ⟨[], none⟩⟩).1.running =
       true) :=
  ⟨rfl, rfl, rfl,
   activate_switch_hook_order
     ⟨⟨600000, 600000, false⟩, ⟨600000, 500000, true⟩, true, ⟨[], none⟩⟩
     UnitId.work ⟨none, none, none⟩ 0 rfl rfl rfl⟩

/-- C4: when the live tick loop advances the current unit past zero (a tick of
at least the 50ms update delay whose elapsed time consumes all the remaining
time), the loop stops, the hook trace is exactly one `onTimeout` (no
`onDeactivate`), the unit stays current with `remainingTime = 0`, and the
derived run state is PAUSED, not STOPPED. -/
theorem getCurrentController_flags (s : WorkRestTimer) (u : UnitId)
    (h : WorkRestTimer.getCurrentController s = some u) :
    (u = UnitId.work ∧ s.work.isCurrent = true) ∨
    (u = UnitId.rest ∧ s.work.isCurrent = false ∧ s.rest.isCurrent = true) := by
  unfold WorkRestTimer.getCurrentController at h
  by_cases hw : s.work.isCurrent = true
  · simp [hw] at h
    exact Or.inl ⟨h.symm, hw⟩
  · have hw2 : s.work.isCurrent = false := by simpa using hw
    simp [hw2] at h
    by_cases hr2 : s.rest.isCurrent = true
    · simp [hr2] at h
      exact Or.inr ⟨h.symm, hw2, hr2⟩
    · have hr3 : s.rest.isCurrent = false := by simpa using hr2
      simp [hr3] at h

theorem tick_timeout_pauses (s : WorkRestTimer) (u : UnitId)
    (elapsedMs now : Int) (hrun : s.running = true)
    (hcur : WorkRestTimer.getCurrentController s = some u)
    (h50 : 50 ≤ elapsedMs) (h0 : 0 ≤ (s.model u).remainingTime)
    (hle : (s.model u).remainingTime ≤ elapsedMs) :
    (WorkRestTimer.tick elapsedMs now s).1.running = false ∧
    WorkRestTimer.getCurrentController (WorkRestTimer.tick elapsedMs now s).1 =
      some u ∧
    ((WorkRestTimer.tick elapsedMs now s).1.model u).remainingTime = 0 ∧
    WorkRestTimer.runStateOf (WorkRestTimer.tick elapsedMs now s).1 =
      WorkRestTimer.RunState.paused ∧
    (WorkRestTimer.tick elapsedMs now s).2 = [TEvent.timeout u] := by
  have hm0 : ((s.model u).updateTime elapsedMs).remainingTime = 0 := by
    unfold TimerModel.updateTime
    split <;> (rename_i hcond ; simp_all ; try omega)
  have hmc : ((s.model u).updateTime elapsedMs).isCurrent =
      (s.model u).isCurrent := by
    unfold TimerModel.updateTime
    split <;> rfl
  have hle0 : ((s.model u).updateTime elapsedMs).remainingTime ≤ 0 :=
    le_of_eq hm0
  rcases getCurrentController_flags s u hcur with ⟨hu, hwork⟩ | ⟨hu, hwork, hrest⟩
  · subst hu
    have ht : WorkRestTimer.tick elapsedMs now s =
        WorkRestTimer.handleTimeout UnitId.work now
          (s.setModel UnitId.work ((s.model UnitId.work).updateTime elapsedMs)) := by
      unfold WorkRestTimer.tick
      simp [hrun, h50, WorkRestTimer.getCurrentController, hwork, hle0]
    rw [ht]
    simp only [WorkRestTimer.model] at hm0 hmc
    unfold WorkRestTimer.handleTimeout
    simp [WorkRestTimer.setModel, WorkRestTimer.model,
      WorkRestTimer.getCurrentController, WorkRestTimer.runStateOf,
      WorkRestTimer.hasCurrentController, hm0, hmc, hwork]
  · subst hu
    have ht : WorkRestTimer.tick elapsedMs now s =
        WorkRestTimer.handleTimeout UnitId.rest now
          (s.setModel UnitId.rest ((s.model UnitId.rest).updateTime elapsedMs)) := by
      unfold WorkRestTimer.tick
      simp [hrun, h50, WorkRestTimer.getCurrentController, hwork, hrest, hle0]
    rw [ht]
    simp only [WorkRestTimer.model] at hm0 hmc
    unfold WorkRestTimer.handleTimeout
    simp [WorkRestTimer.setModel, WorkRestTimer.model,
      WorkRestTimer.getCurrentController, WorkRestTimer.runStateOf,
      WorkRestTimer.hasCurrentController, hm0, hmc, hwork, hrest]

/-- C4 (witness): the timeout theorem applied to a concrete running state with
work active at 30ms remaining and a 100ms tick. -/
theorem tick_timeout_pauses_witness :
    (⟨⟨600000, 30, true⟩, ⟨600000, 600000, false⟩, true,
        ⟨[], some ⟨"1", "d", none, none, 0, none, -1, false⟩⟩⟩ :
      WorkRestTimer).running = true ∧
    WorkRestTimer.getCurrentController
      ⟨⟨600000, 30, true⟩, ⟨600000, 600000, false⟩, true,
        ⟨[], some ⟨"1", "d", none, none, 0, none, -1, false⟩⟩⟩ =
      some UnitId.work ∧
    (50 : Int) ≤ 100 ∧
    ((WorkRestTimer.tick 100 200
        ⟨⟨600000, 30, true⟩, ⟨600000, 600000, false⟩, true,
          ⟨[], some ⟨"1", "d", none, none, 0, none, -1, false⟩⟩⟩).1.running =
      false ∧
     WorkRestTimer.getCurrentController (WorkRestTimer.tick 100 200
        ⟨⟨600000, 30, true⟩, ⟨600000, 600000, false⟩, true,
          ⟨[], some ⟨"1", "d", none, none, 0, none, -1, false⟩⟩⟩).1 =
       some UnitId.work ∧
     ((WorkRestTimer.tick 100 200
        ⟨⟨600000, 30, true⟩, ⟨600000, 600000, false⟩, true,
          ⟨[], some ⟨"1", "d", none, none, 0, none, -1, false⟩⟩⟩).1.model
        UnitId.work).remainingTime = 0 ∧
     WorkRestTimer.runStateOf (WorkRestTimer.tick 100 200
        ⟨⟨600000, 30, true⟩, ⟨600000, 600000, false⟩, true,
          ⟨[], some ⟨"1", "d", none, none, 0, none, -1, false⟩⟩⟩).1 =
       WorkRestTimer.RunState.paused ∧
     (WorkRestTimer.tick 100 200
        ⟨⟨600000, 30, true⟩, ⟨600000, 600000, false⟩, true,
          ⟨[], some ⟨"1", "d", none, none, 0, none, -1, false⟩⟩⟩).2 =
       [TEvent.timeout UnitId.work]) :=
  ⟨rfl, rfl, by decide,
   tick_timeout_pauses _ UnitId.work 100 200 rfl rfl (by decide) (by decide)
     (by decide)⟩

/-- `updateTime` never touches the `isCurrent` flag. -/
theorem updateTime_isCurrent (m : TimerModel) (e : Int) :
    (m.updateTime e).isCurrent = m.isCurrent := by
  unfold TimerModel.updateTime
  split <;> rfl

/-- One tick pass never changes which units are current, and can only leave
the loop live if it was live before. -/
theorem tick_flags (e now : Int) (s : WorkRestTimer) :
    (WorkRestTimer.tick e now s).1.work.isCurrent = s.work.isCurrent ∧
    (WorkRestTimer.tick e now s).1.rest.isCurrent = s.rest.isCurrent ∧
    ((WorkRestTimer.tick e now s).1.running = true → s.running = true) := by
  unfold WorkRestTimer.tick
  cases hr : s.running
  · simp [hr]
  · by_cases h50 : e ≥ (50 : Int)
    · rcases hc : WorkRestTimer.getCurrentController s with _ | u
      · simp [h50, hc]
      · cases u <;>
          simp [h50, hc, WorkRestTimer.setModel, WorkRestTimer.model,
            WorkRestTimer.handleTimeout, updateTime_isCurrent] <;>
          split <;>
          simp [WorkRestTimer.handleTimeout, updateTime_isCurrent, hr]
    · simp [h50]

/-- The engine invariant only depends on the two flags and the running bit. -/
theorem engineInv_of_flags (s t : WorkRestTimer)
    (hw : t.work.isCurrent = s.work.isCurrent)
    (hre : t.rest.isCurrent = s.rest.isCurrent)
    (hrn : t.running = true → s.running = true)
    (h : WorkRestTimer.engineInv s) : WorkRestTimer.engineInv t := by
  obtain ⟨h1, h2⟩ := h
  refine ⟨?_, ?_⟩
  · rw [hw, hre]
    exact h1
  · intro ht
    rw [hw, hre]
    exact h2 (hrn ht)

/-- `start` establishes the engine invariant outright: exactly the activated
unit ends up current and the loop is live. -/
theorem engineInv_start (u : UnitId) (env : Settings) (now : Int)
    (s : WorkRestTimer) :
    WorkRestTimer.engineInv (WorkRestTimer.start u env now s).1 := by
  cases u <;> cases hr : s.running <;>
    simp [WorkRestTimer.engineInv, WorkRestTimer.start,
      WorkRestTimer.setCurrentController, WorkRestTimer.ctrlSetCurrent,
      TimerModel.setCurrent, hr]

/-- `pause` preserves the engine invariant. -/
theorem engineInv_pause (env : Settings) (now : Int) (s : WorkRestTimer)
    (h : WorkRestTimer.engineInv s) :
    WorkRestTimer.engineInv (WorkRestTimer.pause env now s).1 := by
  unfold WorkRestTimer.engineInv at h ⊢
  cases hw : s.work.isCurrent <;> cases hre : s.rest.isCurrent <;>
    cases hr : s.running <;>
    simp [WorkRestTimer.pause, WorkRestTimer.getCurrentController, hw, hre,
      hr] <;>
    simp_all

/-- `reset` establishes the engine invariant outright: nothing current, loop
off. -/
theorem engineInv_reset (env : Settings) (now : Int) (s : WorkRestTimer) :
    WorkRestTimer.engineInv (WorkRestTimer.reset env now s).1 := by
  cases hr : s.running <;>
    simp [WorkRestTimer.engineInv, WorkRestTimer.reset,
      WorkRestTimer.ctrlSetCurrent, TimerModel.setCurrent,
      TimerModel.resetRemainingTime, hr]

/-- A tick pass preserves the engine invariant. -/
theorem engineInv_tick (e now : Int) (s : WorkRestTimer)
    (h : WorkRestTimer.engineInv s) :
    WorkRestTimer.engineInv (WorkRestTimer.tick e now s).1 :=
  engineInv_of_flags s _ (tick_flags e now s).1 (tick_flags e now s).2.1
    (tick_flags e now s).2.2 h

/-- `applyNewTime` touches neither flag nor the running bit. -/
theorem applyNewTime_flags (u : UnitId) (ns : Int) (s : WorkRestTimer) :
    (WorkRestTimer.applyNewTime u ns s).work.isCurrent = s.work.isCurrent ∧
    (WorkRestTimer.applyNewTime u ns s).rest.isCurrent = s.rest.isCurrent ∧
    (WorkRestTimer.applyNewTime u ns s).running = s.running := by
  cases u <;>
    simp only [WorkRestTimer.applyNewTime, WorkRestTimer.setModel,
      WorkRestTimer.model, TimerModel.resetRemainingTime] <;>
    split <;> simp

/-- The edit dialog preserves the engine invariant. -/
theorem engineInv_edit (u : UnitId) (r : Option String) (env : Settings)
    (now : Int) (s : WorkRestTimer) (h : WorkRestTimer.engineInv s) :
    WorkRestTimer.engineInv (WorkRestTimer.editTimer u r env now s).1 := by
  unfold WorkRestTimer.editTimer
  cases hr : s.running
  · simp only [Bool.false_eq_true, if_false]
    have hmid : ∀ t : WorkRestTimer, WorkRestTimer.engineInv t →
        WorkRestTimer.engineInv
          (match r with
           | some str =>
             if str ≠ "" then
               match WorkRestTimer.parseTime str with
               | Except.ok newSeconds =>
                 if newSeconds ≤ 0 then t
                 else WorkRestTimer.applyNewTime u newSeconds t
               | Except.error _ => t
             else t
           | none => t) := by
      intro t ht
      rcases r with _ | str
      · exact ht
      · by_cases hstr : str = ""
        · simp [hstr]
          exact ht
        · simp only [hstr, ne_eq, not_false_iff, if_true]
          cases hp : WorkRestTimer.parseTime str with
          | error msg => exact ht
          | ok ns =>
            by_cases hns : ns ≤ 0
            · simp [hns]
              exact ht
            · simp [hns]
              exact engineInv_of_flags t _ (applyNewTime_flags u ns t).1
                (applyNewTime_flags u ns t).2.1
                (fun hx => by rw [← (applyNewTime_flags u ns t).2.2] ; exact hx)
                ht
    exact hmid s h
  · simp only [if_true]
    apply engineInv_pause
    have hmid := engineInv_pause env now s h
    rcases r with _ | str
    · exact hmid
    · by_cases hstr : str = ""
      · simp [hstr]
        exact hmid
      · simp only [hstr, ne_eq, not_false_iff, if_true]
        cases hp : WorkRestTimer.parseTime str with
        | error msg => exact hmid
        | ok ns =>
          by_cases hns : ns ≤ 0
          · simp [hns]
            exact hmid
          · simp [hns]
            exact engineInv_of_flags _ _ (applyNewTime_flags u ns _).1
              (applyNewTime_flags u ns _).2.1
              (fun hx => by rw [← (applyNewTime_flags u ns _).2.2] ; exact hx)
              hmid

/-- Every UI event preserves the engine invariant. -/
theorem engineInv_step (e : WorkRestTimer.UIEvent) (env : Settings) (now : Int)
    (s : WorkRestTimer) (h : WorkRestTimer.engineInv s) :
    WorkRestTimer.engineInv (WorkRestTimer.step e env now s).1 := by
  cases e with
  | activate u => exact engineInv_start u env now s
  | pauseClick => exact engineInv_pause env now s h
  | resetClick => exact engineInv_reset env now s
  | tickPass ms => exact engineInv_tick ms now s h
  | editDialog u r => exact engineInv_edit u r env now s h

/-- The engine invariant holds in every reachable state. -/
theorem reachable_engineInv (workSec restSec : Int) (led0 : TimeEntriesStorage)
    (s : WorkRestTimer) (h : WorkRestTimer.Reachable workSec restSec led0 s) :
    WorkRestTimer.engineInv s := by
  induction h with
  | init =>
    refine ⟨?_, ?_⟩ <;> simp [WorkRestTimer.initState]
  | next t e env now ht ih => exact engineInv_step e env now t ih

/-- C5: in every state reachable from startup, at most one unit is current,
and the derived run state is STOPPED exactly when no unit is current
(`getCurrentController` is null). -/
theorem single_active_and_stopped_iff (workSec restSec : Int)
    (led0 : TimeEntriesStorage) (s : WorkRestTimer)
    (h : WorkRestTimer.Reachable workSec restSec led0 s) :
    ¬(s.work.isCurrent = true ∧ s.rest.isCurrent = true) ∧
    (WorkRestTimer.runStateOf s = WorkRestTimer.RunState.stopped ↔
      WorkRestTimer.getCurrentController s = none) := by
  obtain ⟨h1, h2⟩ := reachable_engineInv workSec restSec led0 s h
  refine ⟨h1, ?_⟩
  unfold WorkRestTimer.runStateOf WorkRestTimer.getCurrentController
    WorkRestTimer.hasCurrentController
  cases hw : s.work.isCurrent <;> cases hre : s.rest.isCurrent <;>
    cases hr : s.running <;> simp_all

/-- C5 (witness): the invariant theorem applied to the reachable startup state
for 600-second units over an empty ledger. -/
theorem single_active_and_stopped_iff_witness :
    WorkRestTimer.Reachable 600 600 ⟨[], none⟩
      (WorkRestTimer.initState 600 600 ⟨[], none⟩) ∧
    (¬((WorkRestTimer.initState 600 600 ⟨[], none⟩).work.isCurrent = true ∧
        (WorkRestTimer.initState 600 600 ⟨[], none⟩).rest.isCurrent = true) ∧
      (WorkRestTimer.runStateOf (WorkRestTimer.initState 600 600 ⟨[], none⟩) =
          WorkRestTimer.RunState.stopped ↔
        WorkRestTimer.getCurrentController
          (WorkRestTimer.initState 600 600 ⟨[], none⟩) = none)) :=
  ⟨WorkRestTimer.Reachable.init,
   single_active_and_stopped_iff 600 600 ⟨[], none⟩ _
     WorkRestTimer.Reachable.init⟩

/-- `setCurrent` keeps the time fields, hence the range invariant. -/
theorem remainingOk_setCurrent (m : TimerModel) (c : Bool)
    (h : remainingOk m) : remainingOk (m.setCurrent c) := by
  simpa [TimerModel.setCurrent, remainingOk] using h

/-- `resetRemainingTime` re-establishes the range invariant. -/
theorem remainingOk_resetRemainingTime (m : TimerModel) (h : remainingOk m) :
    remainingOk m.resetRemainingTime := by
  obtain ⟨h1, h2⟩ := h
  exact ⟨h1.trans h2, le_refl _⟩

/-- The clamped decrement of `updateTime` preserves the range invariant. -/
theorem remainingOk_updateTime (m : TimerModel) (e : Int) (h : remainingOk m) :
    remainingOk (m.updateTime e) := by
  obtain ⟨h1, h2⟩ := h
  unfold TimerModel.updateTime
  split
  · rename_i hc
    constructor
    · exact le_max_left _ _
    · have h0 : (0 : Int) ≤ m.initialTime := h1.trans h2
      have hstep : m.remainingTime - e ≤ m.initialTime := by omega
      simpa using max_le h0 hstep
  · exact ⟨h1, h2⟩

/-- After `start`, each model is the old one with only its flag rewritten. -/
theorem start_models (u : UnitId) (env : Settings) (now : Int)
    (s : WorkRestTimer) :
    (WorkRestTimer.start u env now s).1.work =
      s.work.setCurrent (decide (UnitId.work = u)) ∧
    (WorkRestTimer.start u env now s).1.rest =
      s.rest.setCurrent (decide (UnitId.rest = u)) := by
  cases u <;> cases hr : s.running <;>
    simp [WorkRestTimer.start, WorkRestTimer.setCurrentController,
      WorkRestTimer.ctrlSetCurrent, TimerModel.setCurrent, hr]

/-- `pause` never touches the timer models. -/
theorem pause_models (env : Settings) (now : Int) (s : WorkRestTimer) :
    (WorkRestTimer.pause env now s).1.work = s.work ∧
    (WorkRestTimer.pause env now s).1.rest = s.rest := by
  cases hr : s.running <;>
    rcases hc : WorkRestTimer.getCurrentController s with _ | u <;>
    simp [WorkRestTimer.pause, hr, hc]

/-- When the loop is live, `pause` stops it. -/
theorem pause_running_false (env : Settings) (now : Int) (s : WorkRestTimer)
    (h : s.running = true) : (WorkRestTimer.pause env now s).1.running = false := by
  rcases hc : WorkRestTimer.getCurrentController s with _ | u <;>
    simp [WorkRestTimer.pause, h, hc]

/-- After `reset`, each model is the old one with remaining time reset and the
flag cleared. -/
theorem reset_models (env : Settings) (now : Int) (s : WorkRestTimer) :
    (WorkRestTimer.reset env now s).1.work =
      s.work.resetRemainingTime.setCurrent false ∧
    (WorkRestTimer.reset env now s).1.rest =
      s.rest.resetRemainingTime.setCurrent false := by
  cases hr : s.running <;>
    simp [WorkRestTimer.reset, WorkRestTimer.ctrlSetCurrent,
      TimerModel.setCurrent, TimerModel.resetRemainingTime, hr]

/-- `start` preserves the range invariant of both units. -/
theorem remainingOk_start (u : UnitId) (env : Settings) (now : Int)
    (s : WorkRestTimer) (h : remainingOk s.work ∧ remainingOk s.rest) :
    remainingOk (WorkRestTimer.start u env now s).1.work ∧
    remainingOk (WorkRestTimer.start u env now s).1.rest := by
  refine ⟨?_, ?_⟩
  · rw [(start_models u env now s).1]
    exact remainingOk_setCurrent _ _ h.1
  · rw [(start_models u env now s).2]
    exact remainingOk_setCurrent _ _ h.2

/-- `pause` preserves the range invariant of both units. -/
theorem remainingOk_pause (env : Settings) (now : Int) (s : WorkRestTimer)
    (h : remainingOk s.work ∧ remainingOk s.rest) :
    remainingOk (WorkRestTimer.pause env now s).1.work ∧
    remainingOk (WorkRestTimer.pause env now s).1.rest := by
  refine ⟨?_, ?_⟩
  · rw [(pause_models env now s).1]
    exact h.1
  · rw [(pause_models env now s).2]
    exact h.2

/-- `reset` preserves the range invariant of both units. -/
theorem remainingOk_reset (env : Settings) (now : Int) (s : WorkRestTimer)
    (h : remainingOk s.work ∧ remainingOk s.rest) :
    remainingOk (WorkRestTimer.reset env now s).1.work ∧
    remainingOk (WorkRestTimer.reset env now s).1.rest := by
  refine ⟨?_, ?_⟩
  · rw [(reset_models env now s).1]
    exact remainingOk_setCurrent _ _ (remainingOk_resetRemainingTime _ h.1)
  · rw [(reset_models env now s).2]
    exact remainingOk_setCurrent _ _ (remainingOk_resetRemainingTime _ h.2)

/-- A tick pass preserves the range invariant of both units. -/
theorem remainingOk_tick (e now : Int) (s : WorkRestTimer)
    (h : remainingOk s.work ∧ remainingOk s.rest) :
    remainingOk (WorkRestTimer.tick e now s).1.work ∧
    remainingOk (WorkRestTimer.tick e now s).1.rest := by
  unfold WorkRestTimer.tick
  cases hr : s.running
  · simpa using h
  · by_cases h50 : e ≥ (50 : Int)
    · rcases hc : WorkRestTimer.getCurrentController s with _ | u
      · simpa [h50, hc] using h
      · cases u
        · simp only [h50, hc, if_true, WorkRestTimer.setModel,
            WorkRestTimer.model]
          split
          · simp [WorkRestTimer.handleTimeout]
            exact ⟨remainingOk_updateTime _ _ h.1, h.2⟩
          · simpa using ⟨remainingOk_updateTime _ _ h.1, h.2⟩
        · simp only [h50, hc, if_true, WorkRestTimer.setModel,
            WorkRestTimer.model]
          split
          · simp [WorkRestTimer.handleTimeout]
            exact ⟨h.1, remainingOk_updateTime _ _ h.2⟩
          · simpa using ⟨h.1, remainingOk_updateTime _ _ h.2⟩
    · simpa [h50] using h

/-- Applying a positive edited duration while the loop is off (as the
edit-dialog flow guarantees: it pauses first) resets the edited unit to the
new value, preserving the range invariant. -/
theorem remainingOk_applyNewTime_notRunning (u : UnitId) (ns : Int)
    (s : WorkRestTimer) (hns : 0 < ns) (hrn : s.running = false)
    (h : remainingOk s.work ∧ remainingOk s.rest) :
    remainingOk (WorkRestTimer.applyNewTime u ns s).work ∧
    remainingOk (WorkRestTimer.applyNewTime u ns s).rest := by
  obtain ⟨hw, hre⟩ := h
  cases u
  · constructor
    · simp [WorkRestTimer.applyNewTime, WorkRestTimer.setModel,
        WorkRestTimer.model, TimerModel.resetRemainingTime, hrn, remainingOk]
      omega
    · simpa [WorkRestTimer.applyNewTime, WorkRestTimer.setModel,
        WorkRestTimer.model, hrn] using hre
  · constructor
    · simpa [WorkRestTimer.applyNewTime, WorkRestTimer.setModel,
        WorkRestTimer.model, hrn] using hw
    · simp [WorkRestTimer.applyNewTime, WorkRestTimer.setModel,
        WorkRestTimer.model, TimerModel.resetRemainingTime, hrn, remainingOk]
      omega

/-- The edit dialog preserves the range invariant of both units. -/
theorem remainingOk_edit (u : UnitId) (r : Option String) (env : Settings)
    (now : Int) (s : WorkRestTimer)
    (h : remainingOk s.work ∧ remainingOk s.rest) :
    remainingOk (WorkRestTimer.editTimer u r env now s).1.work ∧
    remainingOk (WorkRestTimer.editTimer u r env now s).1.rest := by
  have hmid : ∀ t : WorkRestTimer, t.running = false →
      remainingOk t.work ∧ remainingOk t.rest →
      remainingOk (match r with
        | some str =>
          if str ≠ "" then
            match WorkRestTimer.parseTime str with
            | Except.ok newSeconds =>
              if newSeconds ≤ 0 then t
              else WorkRestTimer.applyNewTime u newSeconds t
            | Except.error _ => t
          else t
        | none => t).work ∧
      remainingOk (match r with
        | some str =>
          if str ≠ "" then
            match WorkRestTimer.parseTime str with
            | Except.ok newSeconds =>
              if newSeconds ≤ 0 then t
              else WorkRestTimer.applyNewTime u newSeconds t
            | Except.error _ => t
          else t
        | none => t).rest := by
    intro t htr hok
    rcases r with _ | str
    · exact hok
    · by_cases hstr : str = ""
      · simp [hstr]
        exact hok
      · simp only [hstr, ne_eq, not_false_iff, if_true]
        cases hp : WorkRestTimer.parseTime str with
        | error msg => exact hok
        | ok ns =>
          by_cases hns : ns ≤ 0
          · simp [hns]
            exact hok
          · simp [hns]
            exact remainingOk_applyNewTime_notRunning u ns t (by omega) htr hok
  unfold WorkRestTimer.editTimer
  cases hr : s.running
  · simp only [Bool.false_eq_true, if_false]
    exact hmid s hr h
  · simp only [if_true]
    have hok1 := remainingOk_pause env now s h
    have hrun1 := pause_running_false env now s hr
    have hmid2 := hmid (WorkRestTimer.pause env now s).1 hrun1 hok1
    exact remainingOk_pause env now _ hmid2

/-- Every UI event preserves the range invariant of both units. -/
theorem remainingOk_step (e : WorkRestTimer.UIEvent) (env : Settings)
    (now : Int) (s : WorkRestTimer)
    (h : remainingOk s.work ∧ remainingOk s.rest) :
    remainingOk (WorkRestTimer.step e env now s).1.work ∧
    remainingOk (WorkRestTimer.step e env now s).1.rest := by
  cases e with
  | activate u => exact remainingOk_start u env now s h
  | pauseClick => exact remainingOk_pause env now s h
  | resetClick => exact remainingOk_reset env now s h
  | tickPass ms => exact remainingOk_tick ms now s h
  | editDialog u r => exact remainingOk_edit u r env now s h

/-- The range invariant holds in every reachable state (for non-negative
configured startup durations). -/
theorem reachable_remainingOk (workSec restSec : Int)
    (led0 : TimeEntriesStorage) (hw : 0 ≤ workSec) (hre : 0 ≤ restSec)
    (s : WorkRestTimer) (h : WorkRestTimer.Reachable workSec restSec led0 s) :
    remainingOk s.work ∧ remainingOk s.rest := by
  induction h with
  | init =>
    constructor <;> constructor <;>
      simp [WorkRestTimer.initState] <;> omega
  | next t e env now ht ih => exact remainingOk_step e env now t ih

/-- C7: in every reachable at-rest state, both units keep
`0 ≤ remainingMs ≤ configuredDurationMs` — edits of a running unit included,
because the edit dialog pauses the loop before `applyNewTime`, whose
`!isCurrent || !isRunning` test therefore also resets the remaining time. -/
theorem remaining_within_configured (workSec restSec : Int)
    (led0 : TimeEntriesStorage) (s : WorkRestTimer)
    (hw : 0 ≤ workSec) (hre : 0 ≤ restSec)
    (h : WorkRestTimer.Reachable workSec restSec led0 s) :
    (0 ≤ s.work.remainingTime ∧ s.work.remainingTime ≤ s.work.initialTime) ∧
    (0 ≤ s.rest.remainingTime ∧ s.rest.remainingTime ≤ s.rest.initialTime) :=
  reachable_remainingOk workSec restSec led0 hw hre s h

/-- C7 (witness): the range-invariant theorem applied to the reachable startup
state for 600-second units. -/
theorem remaining_within_configured_witness :
    (0 : Int) ≤ 600 ∧ (0 : Int) ≤ 600 ∧
    WorkRestTimer.Reachable 600 600 ⟨[], none⟩
      (WorkRestTimer.initState 600 600 ⟨[], none⟩) ∧
    ((0 ≤ (WorkRestTimer.initState 600 600 ⟨[], none⟩).work.remainingTime ∧
      (WorkRestTimer.initState 600 600 ⟨[], none⟩).work.remainingTime ≤
        (WorkRestTimer.initState 600 600 ⟨[], none⟩).work.initialTime) ∧
     (0 ≤ (WorkRestTimer.initState 600 600 ⟨[], none⟩).rest.remainingTime ∧
      (WorkRestTimer.initState 600 600 ⟨[], none⟩).rest.remainingTime ≤
        (WorkRestTimer.initState 600 600 ⟨[], none⟩).rest.initialTime)) :=
  ⟨by decide, by decide, WorkRestTimer.Reachable.init,
   remaining_within_configured 600 600 ⟨[], none⟩ _ (by decide) (by decide)
     WorkRestTimer.Reachable.init⟩

/-- Appending strings concatenates their character data. -/
theorem str_data_append (a b : String) : (a ++ b).data = a.data ++ b.data := by
  cases a
  cases b
  rfl

/-- Rebuilding a string from its character data is the identity. -/
theorem string_mk_data (s : String) : String.mk s.data = s := by
  cases s
  rfl

/-- Splitting a separator-free list yields the single piece. -/
theorem splitChar_of_not_mem (sep : Char) (xs : List Char) (h : sep ∉ xs) :
    splitChar sep xs = [xs] := by
  induction xs with
  | nil => rfl
  | cons c cs ih =>
    rw [List.mem_cons] at h
    push_neg at h
    simp only [splitChar]
    rw [if_neg (fun hc => h.1 hc.symm)]
    rw [ih h.2]

/-- Splitting at the first separator after a separator-free prefix peels off
that prefix. -/
theorem splitChar_append_cons (sep : Char) (xs ys : List Char)
    (h : sep ∉ xs) :
    splitChar sep (xs ++ sep :: ys) = xs :: splitChar sep ys := by
  induction xs with
  | nil => simp [splitChar]
  | cons c cs ih =>
    rw [List.mem_cons] at h
    push_neg at h
    simp only [List.cons_append, splitChar]
    rw [if_neg (fun hc => h.1 hc.symm)]
    rw [List.append_eq, ih h.2]

/-- The character data of the `join` fold: the accumulator followed by each
item prefixed with the separator. -/
theorem jsJoin_data (sep : String) (items : List String) :
    ∀ acc : String,
      (items.foldl (fun a b => a ++ sep ++ b) acc).data =
        acc.data ++ (items.map (fun b => sep.data ++ b.data)).flatten := by
  induction items with
  | nil => intro acc; simp
  | cons x xs ih =>
    intro acc
    simp only [List.foldl_cons, List.map_cons, List.flatten_cons]
    rw [ih]
    rw [str_data_append, str_data_append]
    simp [List.append_assoc]

/-- Splitting the newline-join of newline-free pieces recovers the pieces. -/
theorem splitChar_join_pieces (ys : List String) :
    ∀ a : List Char, '\n' ∉ a → (∀ y ∈ ys, '\n' ∉ y.data) →
      splitChar '\n' (a ++ (ys.map (fun b => '\n' :: b.data)).flatten) =
        a :: ys.map String.data := by
  induction ys with
  | nil =>
    intro a ha _
    simpa using splitChar_of_not_mem '\n' a ha
  | cons y ys ih =>
    intro a ha hys
    simp only [List.map_cons, List.flatten_cons]
    have hassoc : a ++ (('\n' :: y.data) ++ (ys.map (fun b => '\n' :: b.data)).flatten) =
        a ++ '\n' :: (y.data ++ (ys.map (fun b => '\n' :: b.data)).flatten) := by
      simp
    rw [hassoc]
    rw [splitChar_append_cons '\n' a _ ha]
    rw [ih y.data (hys y (by simp)) (fun z hz => hys z (by simp [hz]))]

/-- `linesOf` undoes the newline `jsJoin` of newline-free lines. -/
theorem linesOf_jsJoin (l : List String) (hl : l ≠ [])
    (h : ∀ x ∈ l, '\n' ∉ x.data) : linesOf (jsJoin "\n" l) = l := by
  rcases l with _ | ⟨x, xs⟩
  · cases hl rfl
  · unfold linesOf jsSplit jsJoin
    rw [jsJoin_data]
    have hconv : (xs.map (fun b => ("\n").data ++ b.data)) =
        (xs.map (fun b => '\n' :: b.data)) := rfl
    rw [hconv]
    rw [splitChar_join_pieces xs x.data (h x (by simp))
      (fun z hz => h z (by simp [hz]))]
    simp only [List.map_cons, List.map_map]
    congr 1
    rw [show (String.mk ∘ String.data) = id from funext string_mk_data,
      List.map_id]

/-- A `jsJoin` of pieces avoiding a character, with a separator avoiding it
too, avoids that character. -/
theorem char_not_mem_jsJoin (sep : String) (items : List String) (c : Char)
    (hsep : c ∉ sep.data) (h : ∀ x ∈ items, c ∉ x.data) :
    c ∉ (jsJoin sep items).data := by
  rcases items with _ | ⟨x, xs⟩
  · intro hm
    simp [jsJoin] at hm
  · unfold jsJoin
    rw [jsJoin_data]
    intro hmem
    rcases List.mem_append.mp hmem with hx | hj
    · exact h x (by simp) hx
    · rcases List.mem_flatten.mp hj with ⟨l, hl, hcl⟩
      rcases List.mem_map.mp hl with ⟨y, hy, rfl⟩
      rcases List.mem_append.mp hcl with hs | hyd
      · exact hsep hs
      · exact h y (by simp [hy]) hyd

/-- Quoting a newline-free cell keeps it newline-free. -/
theorem noNL_quoteCell (x : String) (h : '\n' ∉ x.data) :
    '\n' ∉ (TimeEntriesStorage.quoteCell x).data := by
  unfold TimeEntriesStorage.quoteCell
  rw [str_data_append, str_data_append]
  intro hm
  rcases List.mem_append.mp hm with h1 | h2
  · rcases List.mem_append.mp h1 with h3 | h4
    · exact absurd h3 (by decide)
    · exact h h4
  · exact absurd h2 (by decide)

/-- A CSV line built from newline-free cells is newline-free. -/
theorem noNL_csvLine (row : List String) (h : ∀ x ∈ row, '\n' ∉ x.data) :
    '\n' ∉ (TimeEntriesStorage.csvLine row).data := by
  unfold TimeEntriesStorage.csvLine
  apply char_not_mem_jsJoin
  · decide
  · intro x hx
    rcases List.mem_map.mp hx with ⟨y, hy, rfl⟩
    exact noNL_quoteCell y (h y hy)

/-- C6 (amended): `exportCSV` returns `null` exactly when there are no
completed sessions; otherwise — provided none of the emitted fields contains
a newline character — its lines are exactly the 8-column header followed by
one quoted, comma-joined row per completed session in storage order, so the
line count is `1 +` the number of completed sessions; and the in-progress
session never influences the output. -/
theorem exportCSV_shape (fmtD fmtT : Option Int → String)
    (email projectName : Option String) (s : TimeEntriesStorage)
    (hcells : ∀ e ∈ s.localEntries,
      ∀ cell ∈ TimeEntriesStorage.csvRow fmtD fmtT email projectName e,
        '\n' ∉ cell.data) :
    (TimeEntriesStorage.exportCSV fmtD fmtT email projectName s = none ↔
      s.localEntries = []) ∧
    (∀ csv, TimeEntriesStorage.exportCSV fmtD fmtT email projectName s =
        some csv →
      linesOf csv =
        TimeEntriesStorage.csvLine TimeEntriesStorage.csvHeader ::
          s.localEntries.map (fun e => TimeEntriesStorage.csvLine
            (TimeEntriesStorage.csvRow fmtD fmtT email projectName e)) ∧
      (linesOf csv).length = 1 + s.localEntries.length) ∧
    (∀ x, TimeEntriesStorage.exportCSV fmtD fmtT email projectName
        { s with currentTimeEntry := x } =
      TimeEntriesStorage.exportCSV fmtD fmtT email projectName s) := by
  refine ⟨?_, ?_, ?_⟩
  · by_cases hlen : s.localEntries.length = 0 <;>
      simp [TimeEntriesStorage.exportCSV, hlen, List.length_eq_zero] <;>
      simpa [← List.length_eq_zero] using hlen
  · intro csv hcsv
    by_cases hlen : s.localEntries.length = 0
    · simp [TimeEntriesStorage.exportCSV, hlen] at hcsv
    · simp only [TimeEntriesStorage.exportCSV, hlen, if_false,
        Option.some.injEq] at hcsv
      have hnn : ∀ x ∈ (TimeEntriesStorage.csvHeader ::
          s.localEntries.map (TimeEntriesStorage.csvRow fmtD fmtT email
            projectName)).map TimeEntriesStorage.csvLine,
          '\n' ∉ x.data := by
        intro x hx
        rcases List.mem_map.mp hx with ⟨row, hrow, rfl⟩
        rcases List.mem_cons.mp hrow with h1 | h2
        · subst h1
          decide
        · rcases List.mem_map.mp h2 with ⟨e, he, rfl⟩
          exact noNL_csvLine _ (hcells e he)
      have hlines := linesOf_jsJoin _ (by simp) hnn
      rw [← hcsv, hlines]
      constructor
      · simp [List.map_map]
      · simp
        omega
  · intro x
    rfl

/-- C6 (counterexample): a completed session whose description contains an
embedded newline makes the export three lines long for a single session, so
the unconditional line-count part of the claim fails. -/
theorem exportCSV_newline_cex :
    (TimeEntriesStorage.exportCSV (fun _ => "2025-01-01")
        (fun _ => "00:00:00") none none
        ⟨[⟨"1", "a\nb", none, none, 0, some 1000, 1, false⟩], none⟩).map
      (fun csv => (linesOf csv).length) = some 3 ∧
    (⟨[⟨"1", "a\nb", none, none, 0, some 1000, 1, false⟩], none⟩ :
        TimeEntriesStorage).localEntries.length = 1 ∧
    (3 : Nat) ≠ 1 + 1 := by
  refine ⟨?_, ?_, ?_⟩ <;> decide

/-- C6 (witness): the export-shape theorem applied to a one-session ledger
with newline-free fields and constant formatter stand-ins. -/
theorem exportCSV_shape_witness :
    (∀ e ∈ (⟨[⟨"1", "d", none, none, 0, some 1000, 1, false⟩], none⟩ :
        TimeEntriesStorage).localEntries,
      ∀ cell ∈ TimeEntriesStorage.csvRow (fun _ => "2025-01-01")
        (fun _ => "00:00:00") none none e, '\n' ∉ cell.data) ∧
    ((TimeEntriesStorage.exportCSV (fun _ => "2025-01-01")
        (fun _ => "00:00:00") none none
        ⟨[⟨"1", "d", none, none, 0, some 1000, 1, false⟩], none⟩ = none ↔
      (⟨[⟨"1", "d", none, none, 0, some 1000, 1, false⟩], none⟩ :
        TimeEntriesStorage).localEntries = []) ∧
     (∀ csv, TimeEntriesStorage.exportCSV (fun _ => "2025-01-01")
          (fun _ => "00:00:00") none none
          ⟨[⟨"1", "d", none, none, 0, some 1000, 1, false⟩], none⟩ =
         some csv →
       linesOf csv =
         TimeEntriesStorage.csvLine TimeEntriesStorage.csvHeader ::
           (⟨[⟨"1", "d", none, none, 0, some 1000, 1, false⟩], none⟩ :
             TimeEntriesStorage).localEntries.map
             (fun e => TimeEntriesStorage.csvLine
               (TimeEntriesStorage.csvRow (fun _ => "2025-01-01")
                 (fun _ => "00:00:00") none none e)) ∧
       (linesOf csv).length = 1 +
         (⟨[⟨"1", "d", none, none, 0, some 1000, 1, false⟩], none⟩ :
           TimeEntriesStorage).localEntries.length) ∧
     (∀ x, TimeEntriesStorage.exportCSV (fun _ => "2025-01-01")
         (fun _ => "00:00:00") none none
         { (⟨[⟨"1", "d", none, none, 0, some 1000, 1, false⟩], none⟩ :
             TimeEntriesStorage) with currentTimeEntry := x } =
       TimeEntriesStorage.exportCSV (fun _ => "2025-01-01")
         (fun _ => "00:00:00") none none
         ⟨[⟨"1", "d", none, none, 0, some 1000, 1, false⟩], none⟩)) :=
  ⟨by decide,
   exportCSV_shape (fun _ => "2025-01-01") (fun _ => "00:00:00") none none
     ⟨[⟨"1", "d", none, none, 0, some 1000, 1, false⟩], none⟩ (by decide)⟩
